import Mathlib

/-!
Shallow embedding of the codec-negotiation core of this repository:
the `MediaEngine` codec registry and SDP codec resolver
(`src/unnamed/part_000`, a `webrtc` package file) and the VP8 selection
helpers and relay loop of the two SFU `main` programs
(`src/unnamed/part_000` lines 19-190 and `src/examples/sfu-minimal/main.go`).

Machine integers (`uint8`, `uint32`, `uint16`, Go `int`) are modelled as
`Nat`/`Int`; the only conversion the embedded code performs is
`uint8(pt)` in `PopulateFromSDP`, modelled as truncation modulo 256.

The SDP text parser (`pion/sdp/v2`) is an external collaborator of this
repository (spec §6): the embedding takes its structured output — the
per-media-section format lists and the payload-type → codec binding that
`GetCodecForPayloadType` exposes — as the input of `PopulateFromSDP`.
-/

namespace Webrtc

/-- The packetizer capability objects attached by the codec constructors
(`&codecs.G722Payloader{}`, `&codecs.OpusPayloader{}`, `&codecs.VP8Payloader{}`,
`&codecs.H264Payloader{}` in `src/unnamed/part_000`); they are opaque
capability handles for this core (spec §1), so only their identity is
modelled.  `NewRTPVP9Codec` passes `nil` for its payloader, modelled as
`none` at type `Option Payloader`. -/
inductive Payloader where
  | g722
  | opus
  | vp8
  | h264
  deriving DecidableEq, Repr

/-- `RTPCodecType` is a Go `int` (`type RTPCodecType int`). -/
abbrev RTPCodecType := Nat

/-- `RTPCodecTypeAudio RTPCodecType = iota + 1` -/
def RTPCodecTypeAudio : RTPCodecType := 1

/-- `RTPCodecTypeVideo` -/
def RTPCodecTypeVideo : RTPCodecType := 2

/-- `func (t RTPCodecType) String() string`.  The default branch returns
`ErrUnknownType.Error()`; that error value is declared outside the given
sources and its text is irrelevant to every claim (the embedded
constructors only ever pass audio or video), so it is rendered here as
the literal `"unknown"`. -/
def RTPCodecType.toString (t : RTPCodecType) : String :=
  if t = RTPCodecTypeAudio then "audio"
  else if t = RTPCodecTypeVideo then "video"
  else "unknown"

/-- `RTPCodecCapability` (`src/unnamed/part_000` lines 462-469).  The
`RTCPFeedback []RTCPFeedback` field is declared with a type defined
outside the given sources and is never written or read by any embedded
code, so it is omitted. -/
structure RTPCodecCapability where
  MimeType : String
  ClockRate : Nat
  Channels : Nat
  SDPFmtpLine : String
  deriving DecidableEq, Repr

/-- `RTPCodec` (`src/unnamed/part_000` lines 429-436).  Go embeds
`RTPCodecCapability`; the embedded struct is the `capability` field here
and its promoted fields are written out explicitly.  The Go field `Type`
is named `Type'` because `Type` is a Lean keyword. -/
structure RTPCodec where
  capability : RTPCodecCapability
  Type' : RTPCodecType
  Name : String
  PayloadType : Nat
  Payloader : Option Payloader
  deriving DecidableEq, Repr

/-- Promoted-field write `codec.SDPFmtpLine = parameters` used by
`PopulateFromSDP` on the VP8/VP9/H264 branches. -/
def RTPCodec.setSDPFmtpLine (c : RTPCodec) (parameters : String) : RTPCodec :=
  { c with capability := { c.capability with SDPFmtpLine := parameters } }

/-- Promoted-field read `codec.SDPFmtpLine`. -/
def RTPCodec.SDPFmtpLine (c : RTPCodec) : String :=
  c.capability.SDPFmtpLine

/-- Promoted-field read `codec.ClockRate`. -/
def RTPCodec.ClockRate (c : RTPCodec) : Nat :=
  c.capability.ClockRate

/-- Names for the default codecs supported by Pion WebRTC. -/
def G722 : String := "G722"

/-- Canonical opus codec name. -/
def Opus : String := "opus"

/-- Canonical VP8 codec name. -/
def VP8 : String := "VP8"

/-- Canonical VP9 codec name. -/
def VP9 : String := "VP9"

/-- Canonical H264 codec name. -/
def H264 : String := "H264"

/-- `func NewRTPCodec(...)` (`src/unnamed/part_000` lines 439-460). -/
def NewRTPCodec (codecType : RTPCodecType) (name : String) (clockrate : Nat)
    (channels : Nat) (fmtp : String) (payloadType : Nat)
    (payloader : Option Payloader) : RTPCodec :=
  { capability :=
      { MimeType := codecType.toString ++ "/" ++ name
        ClockRate := clockrate
        Channels := channels
        SDPFmtpLine := fmtp }
    PayloadType := payloadType
    Payloader := payloader
    Type' := codecType
    Name := name }

/-- `func NewRTPG722Codec(payloadType uint8, clockrate uint32) *RTPCodec`. -/
def NewRTPG722Codec (payloadType clockrate : Nat) : RTPCodec :=
  NewRTPCodec RTPCodecTypeAudio G722 clockrate 0 "" payloadType (some .g722)

/-- `func NewRTPOpusCodec`: channels 2, fixed fmtp line. -/
def NewRTPOpusCodec (payloadType clockrate : Nat) : RTPCodec :=
  NewRTPCodec RTPCodecTypeAudio Opus clockrate 2 "minptime=10;useinbandfec=1"
    payloadType (some .opus)

/-- `func NewRTPVP8Codec`. -/
def NewRTPVP8Codec (payloadType clockrate : Nat) : RTPCodec :=
  NewRTPCodec RTPCodecTypeVideo VP8 clockrate 0 "" payloadType (some .vp8)

/-- `func NewRTPVP9Codec`: the payloader argument is `nil` in the source
(comment `pion/webrtc#755`). -/
def NewRTPVP9Codec (payloadType clockrate : Nat) : RTPCodec :=
  NewRTPCodec RTPCodecTypeVideo VP9 clockrate 0 "" payloadType none

/-- `func NewRTPH264Codec`. -/
def NewRTPH264Codec (payloadType clockrate : Nat) : RTPCodec :=
  NewRTPCodec RTPCodecTypeVideo H264 clockrate 0
    "level-asymmetry-allowed=1;packetization-mode=1;profile-level-id=42001f"
    payloadType (some .h264)

/-- `type MediaEngine struct { codecs []*RTPCodec }`. -/
structure MediaEngine where
  codecs : List RTPCodec
  deriving DecidableEq, Repr

/-- The zero-value `webrtc.MediaEngine{}` every caller starts from. -/
def emptyEngine : MediaEngine := { codecs := [] }

/-- `func (m *MediaEngine) RegisterCodec(codec *RTPCodec) uint8`: appends
and returns the codec's payload type.  The Go method mutates `m`; the
embedding returns the updated engine together with the return value. -/
def MediaEngine.RegisterCodec (m : MediaEngine) (codec : RTPCodec) :
    MediaEngine × Nat :=
  ({ codecs := m.codecs ++ [codec] }, codec.PayloadType)

/-- Accumulator loop of `GetCodecsByKind`: `var codecs []*RTPCodec; for
... { if codec.Type == kind { codecs = append(codecs, codec) } }`. -/
def getCodecsByKindLoop (kind : RTPCodecType) :
    List RTPCodec → List RTPCodec → List RTPCodec
  | acc, [] => acc
  | acc, codec :: rest =>
    if codec.Type' = kind then getCodecsByKindLoop kind (acc ++ [codec]) rest
    else getCodecsByKindLoop kind acc rest

/-- `func (m *MediaEngine) GetCodecsByKind(kind RTPCodecType) []*RTPCodec`. -/
def MediaEngine.GetCodecsByKind (m : MediaEngine) (kind : RTPCodecType) :
    List RTPCodec :=
  getCodecsByKindLoop kind [] m.codecs

/-- Accumulator loop of `GetCodecsByName`. -/
def getCodecsByNameLoop (codecName : String) :
    List RTPCodec → List RTPCodec → List RTPCodec
  | acc, [] => acc
  | acc, codec :: rest =>
    if codec.Name = codecName then getCodecsByNameLoop codecName (acc ++ [codec]) rest
    else getCodecsByNameLoop codecName acc rest

/-- `func (m *MediaEngine) GetCodecsByName(codecName string) []*RTPCodec`. -/
def MediaEngine.GetCodecsByName (m : MediaEngine) (codecName : String) :
    List RTPCodec :=
  getCodecsByNameLoop codecName [] m.codecs

/-! ### Structured session-description view (external SDP parser, spec §6) -/

/-- `sdp.Codec`: the (codec-name, clock-rate, format-parameter) binding
the external parser determines for one payload type of a description
(`payloadCodec` in `PopulateFromSDP`). -/
structure SdpCodec where
  Name : String
  ClockRate : Nat
  Fmtp : String
  deriving DecidableEq, Repr

/-- One media section's declared format identifiers
(`md.MediaName.Formats`), as the raw strings of the `m=` line. -/
structure MediaDescription where
  Formats : List String
  deriving DecidableEq, Repr

/-- The structured view of a session description that the external SDP
parser exposes after a successful `Unmarshal` (spec §6): the media
sections with their format lists, and the description-wide payload-type
→ codec binding that `sdpsd.GetCodecForPayloadType` answers from. -/
structure ParsedSessionDescription where
  MediaDescriptions : List MediaDescription
  codecTable : List (Nat × SdpCodec)
  deriving DecidableEq, Repr

/-- `sdpsd.GetCodecForPayloadType(payloadType)`: the codec bound to a
payload type within the same description, or a not-found failure
(`none`). -/
def ParsedSessionDescription.GetCodecForPayloadType
    (sd : ParsedSessionDescription) (payloadType : Nat) : Option SdpCodec :=
  (sd.codecTable.find? (fun e => e.1 == payloadType)).map (fun e => e.2)

/-- All declared formats of the description in media-section order: the
scan order of the two nested loops of `PopulateFromSDP`. -/
def ParsedSessionDescription.allFormats (sd : ParsedSessionDescription) :
    List String :=
  sd.MediaDescriptions.flatMap (fun md => md.Formats)

/-! ### `strconv.Atoi` and the `uint8` conversion -/

/-- Decimal digit run: `some` of its value when non-empty and all ASCII
digits, else `none`. -/
def parseDigits (cs : List Char) : Option Nat :=
  if cs.isEmpty then none
  else if cs.all (fun c => c.isDigit) then
    some (cs.foldl (fun a c => a * 10 + (c.toNat - 48)) 0)
  else none

/-- `strconv.Atoi`: an optional leading `+` or `-` followed by one or
more ASCII digits, failing on any other syntax and on values outside the
64-bit signed integer range (Go returns a non-nil error on overflow, and
`PopulateFromSDP` only consumes the error). -/
def atoi (s : String) : Option Int :=
  let signed : Option Int :=
    match s.data with
    | '+' :: rest => (parseDigits rest).map (fun n => (n : Int))
    | '-' :: rest => (parseDigits rest).map (fun n => -(n : Int))
    | cs => (parseDigits cs).map (fun n => (n : Int))
  signed.bind (fun v =>
    if -(2 ^ 63) ≤ v ∧ v ≤ 2 ^ 63 - 1 then some v else none)

/-- Go's `uint8(pt)` conversion on an `int`: the low 8 bits, i.e. the
value modulo 256 (`Int.emod` is non-negative for a positive modulus). -/
def uint8OfInt (i : Int) : Nat :=
  (i % 256).toNat

/-! ### `PopulateFromSDP` -/

/-- The two failures `PopulateFromSDP` itself produces:
`fmt.Errorf("format parse error")` and
`fmt.Errorf("could not find codec for payload type %d", payloadType)`.
The spec names them `MalformedDescription` and `UnresolvableCodec`. -/
inductive PopulateErr where
  | malformedDescription
  | unresolvableCodec (payloadType : Nat)
  deriving DecidableEq, Repr

/-- The `switch payloadCodec.Name` of `PopulateFromSDP`: the codec
registered for one resolved format, or `none` on the `default` branch
(`// ignoring other codecs`). -/
def switchCodec (payloadCodec : SdpCodec) (payloadType : Nat) : Option RTPCodec :=
  let clockRate := payloadCodec.ClockRate
  let parameters := payloadCodec.Fmtp
  if payloadCodec.Name = G722 then
    some (NewRTPG722Codec payloadType clockRate)
  else if payloadCodec.Name = Opus then
    some (NewRTPOpusCodec payloadType clockRate)
  else if payloadCodec.Name = VP8 then
    some ((NewRTPVP8Codec payloadType clockRate).setSDPFmtpLine parameters)
  else if payloadCodec.Name = VP9 then
    some ((NewRTPVP9Codec payloadType clockRate).setSDPFmtpLine parameters)
  else if payloadCodec.Name = H264 then
    some ((NewRTPH264Codec payloadType clockRate).setSDPFmtpLine parameters)
  else
    none

/-- Inner loop of `PopulateFromSDP` over one format list: parse the
format, look its payload type up in the description, register the known
codecs, propagate the first error. -/
def populateFormats (sd : ParsedSessionDescription) (m : MediaEngine) :
    List String → Except PopulateErr MediaEngine
  | [] => .ok m
  | format :: rest =>
    match atoi format with
    | none => .error .malformedDescription
    | some pt =>
      let payloadType := uint8OfInt pt
      match sd.GetCodecForPayloadType payloadType with
      | none => .error (.unresolvableCodec payloadType)
      | some payloadCodec =>
        match switchCodec payloadCodec payloadType with
        | none => populateFormats sd m rest
        | some codec => populateFormats sd (m.RegisterCodec codec).1 rest

/-- Outer loop of `PopulateFromSDP` over the media sections. -/
def populateMedias (sd : ParsedSessionDescription) (m : MediaEngine) :
    List MediaDescription → Except PopulateErr MediaEngine
  | [] => .ok m
  | md :: rest =>
    match populateFormats sd m md.Formats with
    | .error e => .error e
    | .ok m' => populateMedias sd m' rest

/-- `func (m *MediaEngine) PopulateFromSDP(sd SessionDescription) error`
over the parsed view.  The Go method mutates `m` in place and returns
only the error; the embedding returns the populated engine on success
and, being functional, produces no engine on failure (callers of the Go
method discard the engine when the error is non-nil). -/
def MediaEngine.PopulateFromSDP (m : MediaEngine)
    (sd : ParsedSessionDescription) : Except PopulateErr MediaEngine :=
  populateMedias sd m sd.MediaDescriptions

/-! ### VP8 selection helpers of the two `main` programs -/

/-- Failures of `preferredCodec` (`src/unnamed/part_000` lines 179-190):
a propagated `PopulateFromSDP` error, or the
`fmt.Errorf("no %d codec in session description", codecName)` failure
the spec calls `CodecNotFound`. -/
inductive CodecErr where
  | populate (e : PopulateErr)
  | codecNotFound
  deriving DecidableEq, Repr

/-- `func preferredCodec(codecName string, sd webrtc.SessionDescription)
(*webrtc.RTPCodec, error)`: resolve the description into a fresh engine
and return the first codec of the requested name. -/
def preferredCodec (codecName : String) (sd : ParsedSessionDescription) :
    Except CodecErr RTPCodec :=
  match emptyEngine.PopulateFromSDP sd with
  | .error e => .error (.populate e)
  | .ok m =>
    match m.GetCodecsByName codecName with
    | [] => .error .codecNotFound
    | c :: _ => .ok c

/-- Failures of `firstCodecOfType` (`src/examples/sfu-minimal/main.go`
lines 193-204): `fmt.Errorf("no %s codecs found", kind)` when the kind
filter is empty, `fmt.Errorf("no %s codecs found", codecName)` when no
codec of the kind has the requested name. -/
inductive FirstCodecErr where
  | noCodecsOfKind
  | noCodecsOfName
  deriving DecidableEq, Repr

/-- `func firstCodecOfType(m *webrtc.MediaEngine, codecName string, kind
webrtc.RTPCodecType) (uint8, error)`: filter by kind, then return the
payload type of the first entry with the requested name (`find?` is the
source's first-match `for` loop). -/
def firstCodecOfType (m : MediaEngine) (codecName : String)
    (kind : RTPCodecType) : Except FirstCodecErr Nat :=
  let codecs := m.GetCodecsByKind kind
  if codecs.isEmpty then .error .noCodecsOfKind
  else
    match codecs.find? (fun c => c.Name == codecName) with
    | some c => .ok c.PayloadType
    | none => .error .noCodecsOfName

/-! ### Forwarding loop (`OnTrack` handler) and subscriber loop

The forwarding loop (`src/examples/sfu-minimal/main.go` lines 98-109,
identical in `src/unnamed/part_000` lines 87-98) repeatedly reads one
packet from the remote track and writes it to the local track:
`panic(readErr)` on any read failure, `panic(err)` on any write failure
other than `io.ErrClosedPipe`, and a plain continue when the write
failed with `io.ErrClosedPipe`.  The transport is external (spec §6), so
a run of the loop is driven by a trace of read/write outcomes. -/

/-- Outcome of one `localTrack.Write` call: success, `io.ErrClosedPipe`
(no sink ready), or any other failure. -/
inductive WriteResult where
  | ok
  | closedPipe
  | fatal
  deriving DecidableEq, Repr

/-- One iteration's transport outcome: the read failed, or it returned a
packet (the bytes `rtpBuf[:i]`) whose forwarding write had the given
result. -/
inductive LoopEvent where
  | readFail
  | packet (data : List Nat) (w : WriteResult)
  deriving DecidableEq, Repr

/-- The forwarding loop over a trace: the packets successfully written
to the local track before the loop terminates.  `panic` ends the loop
(and the process), so a read failure or a non-`ErrClosedPipe` write
failure discards the rest of the trace; an `ErrClosedPipe` write is
swallowed and the loop continues. -/
def runLoop : List LoopEvent → List (List Nat)
  | [] => []
  | .readFail :: _ => []
  | .packet d .ok :: rest => d :: runLoop rest
  | .packet _ .closedPipe :: rest => runLoop rest
  | .packet _ .fatal :: _ => []

/-- Process-level state of the SFU around its subscriber loop
(`src/unnamed/part_000` lines 124-174): the payload types of the sinks
attached so far and whether the process has panicked.  A Go `panic` in
`main` kills the whole process, forwarding goroutine included, so it is
a flag that silences everything. -/
structure SfuState where
  sinks : List Nat
  crashed : Bool
  deriving DecidableEq, Repr

/-- One iteration of the subscriber loop on one subscriber offer:
`preferredCodec(webrtc.VP8, recvOnlyOffer)` and, on error, `panic(err)`;
on success the new peer connection is attached as one more sink carrying
the negotiated payload type.  (`src/examples/sfu-minimal/main.go` lines
139-153 computes the same payload type via `PopulateFromSDP` +
`firstCodecOfType` and also panics on error.) -/
def subscriberStep (st : SfuState) (offer : ParsedSessionDescription) :
    SfuState :=
  if st.crashed then st
  else
    match preferredCodec VP8 offer with
    | .error _ => { st with crashed := true }
    | .ok codec => { st with sinks := st.sinks ++ [codec.PayloadType] }

/-- Delivery of one forwarded packet to the attached sinks: every sink
receives an identical copy, and a crashed process forwards nothing. -/
def deliverPacket (st : SfuState) (data : List Nat) :
    List (Nat × List Nat) :=
  if st.crashed then []
  else st.sinks.map (fun s => (s, data))

/-! ### Spec-side observables of a description

These are written from the claims' vocabulary, assembled from the same
source-translated pieces (`atoi`, `GetCodecForPayloadType`,
`switchCodec`), to state what the resolver should produce. -/

/-- The format's resolution outcome as `PopulateFromSDP` would see it:
the registered codec when the format parses, resolves, and has a known
name; `none` otherwise. -/
def knownCodecOfFormat (sd : ParsedSessionDescription) (format : String) :
    Option RTPCodec :=
  (atoi format).bind (fun pt =>
    (sd.GetCodecForPayloadType (uint8OfInt pt)).bind (fun payloadCodec =>
      switchCodec payloadCodec (uint8OfInt pt)))

/-- Whether a declared format advertises VP8: it parses and the
description binds its (truncated) payload type to the name `VP8`. -/
def vp8Format (sd : ParsedSessionDescription) (format : String) : Bool :=
  match atoi format with
  | none => false
  | some pt =>
    match sd.GetCodecForPayloadType (uint8OfInt pt) with
    | none => false
    | some payloadCodec => payloadCodec.Name == VP8

/-- The payload type at which the description's first-advertised VP8
entry appears: the truncated parse of the first VP8-advertising format
in media-section scan order. -/
def firstVP8PayloadType (sd : ParsedSessionDescription) : Option Nat :=
  (sd.allFormats.find? (vp8Format sd)).bind
    (fun format => (atoi format).map uint8OfInt)

/-- The offense a single declared format commits, if any:
`malformedDescription` when it does not parse as an integer,
`unresolvableCodec` when it parses but its (truncated) payload type has
no codec binding in the description; `none` when it resolves. -/
def offenseOfFormat (sd : ParsedSessionDescription) (format : String) :
    Option PopulateErr :=
  match atoi format with
  | none => some .malformedDescription
  | some pt =>
    match sd.GetCodecForPayloadType (uint8OfInt pt) with
    | none => some (.unresolvableCodec (uint8OfInt pt))
    | some _ => none

/-- The first offending format of a description in scan order, as the
error it commits; `none` when every format resolves. -/
def firstOffense (sd : ParsedSessionDescription) : Option PopulateErr :=
  sd.allFormats.findSome? (offenseOfFormat sd)

/-- The packetizer capability the resolver attaches, as a function of
the canonical name alone: present for G722, opus, VP8 and H264, absent
(`nil` in the source, `pion/webrtc#755`) for VP9. -/
def payloaderForName (name : String) : Option Payloader :=
  if name = G722 then some .g722
  else if name = Opus then some .opus
  else if name = VP8 then some .vp8
  else if name = H264 then some .h264
  else none

/-- The kind the resolver's constructors give each known canonical name:
audio for G722 and opus, video for VP8, VP9 and H264. -/
def kindForName (name : String) : RTPCodecType :=
  if name = G722 ∨ name = Opus then RTPCodecTypeAudio else RTPCodecTypeVideo

/-- The (payload type, clock rate, format parameters) triple the
resolver's descriptor for a known-name format actually carries: payload
type and clock rate from the description; the description's format
parameters only for VP8, VP9 and H264, while G722 gets `""` and opus the
constructor's fixed line. -/
def boundKnown (sd : ParsedSessionDescription) (format : String) :
    Option (Nat × Nat × String) :=
  (atoi format).bind (fun pt =>
    (sd.GetCodecForPayloadType (uint8OfInt pt)).bind (fun payloadCodec =>
      let payloadType := uint8OfInt pt
      if payloadCodec.Name = G722 then
        some (payloadType, payloadCodec.ClockRate, "")
      else if payloadCodec.Name = Opus then
        some (payloadType, payloadCodec.ClockRate, "minptime=10;useinbandfec=1")
      else if payloadCodec.Name = VP8 ∨ payloadCodec.Name = VP9 ∨
          payloadCodec.Name = H264 then
        some (payloadType, payloadCodec.ClockRate, payloadCodec.Fmtp)
      else none))

/-- The payload types of the description's known-name formats, in scan
order: the payload type numbers the resolver registers. -/
def knownPayloadTypes (sd : ParsedSessionDescription) : List Nat :=
  sd.allFormats.filterMap (fun format =>
    (knownCodecOfFormat sd format).map (fun c => c.PayloadType))

/-! ### Lemmas: the registry lookups are order-preserving filters -/

theorem getCodecsByKindLoop_eq (kind : RTPCodecType) :
    ∀ (l acc : List RTPCodec),
      getCodecsByKindLoop kind acc l =
        acc ++ l.filter (fun codec => codec.Type' == kind)
  | [], acc => by simp [getCodecsByKindLoop]
  | codec :: rest, acc => by
    by_cases h : codec.Type' = kind <;>
      simp [getCodecsByKindLoop, h, getCodecsByKindLoop_eq kind rest]

theorem getCodecsByNameLoop_eq (codecName : String) :
    ∀ (l acc : List RTPCodec),
      getCodecsByNameLoop codecName acc l =
        acc ++ l.filter (fun codec => codec.Name == codecName)
  | [], acc => by simp [getCodecsByNameLoop]
  | codec :: rest, acc => by
    by_cases h : codec.Name = codecName <;>
      simp [getCodecsByNameLoop, h, getCodecsByNameLoop_eq codecName rest]

theorem GetCodecsByKind_eq (m : MediaEngine) (kind : RTPCodecType) :
    m.GetCodecsByKind kind =
      m.codecs.filter (fun codec => codec.Type' == kind) := by
  rw [MediaEngine.GetCodecsByKind, getCodecsByKindLoop_eq]
  rfl

theorem GetCodecsByName_eq (m : MediaEngine) (codecName : String) :
    m.GetCodecsByName codecName =
      m.codecs.filter (fun codec => codec.Name == codecName) := by
  rw [MediaEngine.GetCodecsByName, getCodecsByNameLoop_eq]
  rfl

/-! ### Lemmas: `PopulateFromSDP` characterized format by format -/

theorem populateFormats_ok_codecs (sd : ParsedSessionDescription) :
    ∀ (fs : List String) (m m' : MediaEngine),
      populateFormats sd m fs = .ok m' →
      m'.codecs = m.codecs ++ fs.filterMap (knownCodecOfFormat sd)
  | [], m, m', h => by
    simp [populateFormats] at h
    simp [h]
  | format :: rest, m, m', h => by
    cases hA : atoi format with
    | none => simp [populateFormats, hA] at h
    | some pt =>
      cases hL : sd.GetCodecForPayloadType (uint8OfInt pt) with
      | none => simp [populateFormats, hA, hL] at h
      | some pc =>
        cases hS : switchCodec pc (uint8OfInt pt) with
        | none =>
          simp only [populateFormats, hA, hL, hS] at h
          have ih := populateFormats_ok_codecs sd rest m m' h
          simp [List.filterMap_cons, knownCodecOfFormat, hA, hL, hS, ih]
        | some codec =>
          simp only [populateFormats, hA, hL, hS] at h
          have ih := populateFormats_ok_codecs sd rest (m.RegisterCodec codec).1 m' h
          simp [List.filterMap_cons, knownCodecOfFormat, hA, hL, hS, ih,
            MediaEngine.RegisterCodec]

theorem populateFormats_error_iff (sd : ParsedSessionDescription) :
    ∀ (fs : List String) (m : MediaEngine) (e : PopulateErr),
      populateFormats sd m fs = .error e ↔
        fs.findSome? (offenseOfFormat sd) = some e
  | [], m, e => by simp [populateFormats]
  | format :: rest, m, e => by
    cases hA : atoi format with
    | none => simp [populateFormats, hA, List.findSome?_cons, offenseOfFormat]
    | some pt =>
      cases hL : sd.GetCodecForPayloadType (uint8OfInt pt) with
      | none => simp [populateFormats, hA, hL, List.findSome?_cons, offenseOfFormat]
      | some pc =>
        cases hS : switchCodec pc (uint8OfInt pt) with
        | none =>
          simp [populateFormats, hA, hL, hS, List.findSome?_cons, offenseOfFormat,
            populateFormats_error_iff sd rest m e]
        | some codec =>
          simp [populateFormats, hA, hL, hS, List.findSome?_cons, offenseOfFormat,
            populateFormats_error_iff sd rest (m.RegisterCodec codec).1 e]

theorem populateFormats_append (sd : ParsedSessionDescription) :
    ∀ (l₁ l₂ : List String) (m : MediaEngine),
      populateFormats sd m (l₁ ++ l₂) =
        match populateFormats sd m l₁ with
        | .error e => .error e
        | .ok m' => populateFormats sd m' l₂
  | [], l₂, m => by simp [populateFormats]
  | format :: rest, l₂, m => by
    cases hA : atoi format with
    | none => simp [populateFormats, hA]
    | some pt =>
      cases hL : sd.GetCodecForPayloadType (uint8OfInt pt) with
      | none => simp [populateFormats, hA, hL]
      | some pc =>
        cases hS : switchCodec pc (uint8OfInt pt) with
        | none =>
          simp only [List.cons_append, populateFormats, hA, hL, hS]
          exact populateFormats_append sd rest l₂ m
        | some codec =>
          simp only [List.cons_append, populateFormats, hA, hL, hS]
          exact populateFormats_append sd rest l₂ (m.RegisterCodec codec).1

theorem populateMedias_eq (sd : ParsedSessionDescription) :
    ∀ (mds : List MediaDescription) (m : MediaEngine),
      populateMedias sd m mds =
        populateFormats sd m (mds.flatMap (fun md => md.Formats))
  | [], m => by simp [populateMedias, populateFormats]
  | md :: rest, m => by
    rw [List.flatMap_cons, populateFormats_append]
    cases hF : populateFormats sd m md.Formats with
    | error e => simp [populateMedias, hF]
    | ok m' => simp [populateMedias, hF, populateMedias_eq sd rest m']

theorem PopulateFromSDP_eq (m : MediaEngine) (sd : ParsedSessionDescription) :
    m.PopulateFromSDP sd = populateFormats sd m sd.allFormats := by
  rw [MediaEngine.PopulateFromSDP, populateMedias_eq]
  rfl

theorem registry_codecs (sd : ParsedSessionDescription) (m : MediaEngine)
    (hok : emptyEngine.PopulateFromSDP sd = .ok m) :
    m.codecs = sd.allFormats.filterMap (knownCodecOfFormat sd) := by
  rw [PopulateFromSDP_eq] at hok
  have h2 := populateFormats_ok_codecs sd sd.allFormats emptyEngine m hok
  simpa [emptyEngine] using h2

/-! ### Lemmas: fields of the descriptors `switchCodec` constructs -/

theorem switchCodec_fields (pc : SdpCodec) (pt : Nat) (c : RTPCodec)
    (h : switchCodec pc pt = some c) :
    c.Name = pc.Name ∧ c.PayloadType = pt ∧ c.ClockRate = pc.ClockRate ∧
      c.Payloader = payloaderForName pc.Name ∧ c.Type' = kindForName pc.Name := by
  unfold switchCodec at h
  split_ifs at h with h1 h2 h3 h4 h5 <;>
    (injection h with h
     subst h) <;>
    simp_all [NewRTPG722Codec, NewRTPOpusCodec, NewRTPVP8Codec, NewRTPVP9Codec,
      NewRTPH264Codec, NewRTPCodec, RTPCodec.setSDPFmtpLine, RTPCodec.ClockRate,
      payloaderForName, kindForName, G722, Opus, VP8, VP9, H264]

theorem switchCodec_triple (pc : SdpCodec) (pt : Nat) :
    (switchCodec pc pt).map
        (fun c => (c.PayloadType, c.ClockRate, c.SDPFmtpLine)) =
      (if pc.Name = G722 then some (pt, pc.ClockRate, "")
       else if pc.Name = Opus then
         some (pt, pc.ClockRate, "minptime=10;useinbandfec=1")
       else if pc.Name = VP8 ∨ pc.Name = VP9 ∨ pc.Name = H264 then
         some (pt, pc.ClockRate, pc.Fmtp)
       else none) := by
  unfold switchCodec
  split_ifs with h1 h2 h3 h4 h5 <;>
    simp_all [NewRTPG722Codec, NewRTPOpusCodec, NewRTPVP8Codec, NewRTPVP9Codec,
      NewRTPH264Codec, NewRTPCodec, RTPCodec.setSDPFmtpLine, RTPCodec.ClockRate,
      RTPCodec.SDPFmtpLine]

theorem knownCodecOfFormat_fields (sd : ParsedSessionDescription) (f : String)
    (c : RTPCodec) (h : knownCodecOfFormat sd f = some c) :
    c.Payloader = payloaderForName c.Name ∧ c.Type' = kindForName c.Name := by
  unfold knownCodecOfFormat at h
  rcases Option.bind_eq_some.mp h with ⟨pt, hA, h2⟩
  rcases Option.bind_eq_some.mp h2 with ⟨pc, hL, hS⟩
  obtain ⟨hn, -, -, hp, hk⟩ := switchCodec_fields pc (uint8OfInt pt) c hS
  rw [hn]
  exact ⟨hp, hk⟩

theorem registry_fields (sd : ParsedSessionDescription) (m : MediaEngine)
    (hok : emptyEngine.PopulateFromSDP sd = .ok m) :
    ∀ c ∈ m.codecs, c.Payloader = payloaderForName c.Name ∧
      c.Type' = kindForName c.Name := by
  intro c hc
  rw [registry_codecs sd m hok] at hc
  rcases List.mem_filterMap.mp hc with ⟨f, -, hf⟩
  exact knownCodecOfFormat_fields sd f c hf

theorem knownCodecOfFormat_triple (sd : ParsedSessionDescription) (f : String) :
    (knownCodecOfFormat sd f).map
        (fun c => (c.PayloadType, c.ClockRate, c.SDPFmtpLine)) =
      boundKnown sd f := by
  unfold knownCodecOfFormat boundKnown
  cases hA : atoi f with
  | none => simp
  | some pt =>
    simp only [Option.some_bind]
    cases hL : sd.GetCodecForPayloadType (uint8OfInt pt) with
    | none => simp
    | some pc =>
      simp only [Option.some_bind]
      exact switchCodec_triple pc (uint8OfInt pt)

/-! ### Lemmas: locating the first VP8 entry -/

theorem vp8Format_iff (sd : ParsedSessionDescription) (f : String) :
    vp8Format sd f = true ↔
      ∃ c, knownCodecOfFormat sd f = some c ∧ c.Name = VP8 := by
  unfold vp8Format knownCodecOfFormat
  cases hA : atoi f with
  | none => simp
  | some pt =>
    simp only [Option.some_bind]
    cases hL : sd.GetCodecForPayloadType (uint8OfInt pt) with
    | none => simp
    | some pc =>
      simp only [Option.some_bind, beq_iff_eq]
      constructor
      · intro hname
        refine ⟨(NewRTPVP8Codec (uint8OfInt pt) pc.ClockRate).setSDPFmtpLine pc.Fmtp,
          ?_, ?_⟩
        · simp [switchCodec, hname, G722, Opus, VP8]
        · simp [NewRTPVP8Codec, NewRTPCodec, RTPCodec.setSDPFmtpLine]
      · rintro ⟨c, hc, hn⟩
        have hf := switchCodec_fields pc (uint8OfInt pt) c hc
        rw [← hf.1]
        exact hn

theorem find_vp8_registry (sd : ParsedSessionDescription) :
    ∀ (fs : List String),
      ((fs.filterMap (knownCodecOfFormat sd)).find? (fun c => c.Name == VP8)) =
        (fs.find? (vp8Format sd)).bind (knownCodecOfFormat sd)
  | [] => by simp
  | f :: rest => by
    cases hK : knownCodecOfFormat sd f with
    | none =>
      have hv : vp8Format sd f = false := by
        rw [Bool.eq_false_iff]
        intro hv
        rcases (vp8Format_iff sd f).mp hv with ⟨c, hc, -⟩
        rw [hK] at hc
        exact Option.noConfusion hc
      rw [List.filterMap_cons_none hK, List.find?_cons_of_neg _ (by simp [hv]),
        find_vp8_registry sd rest]
    | some c =>
      by_cases hv : vp8Format sd f = true
      · have hn : c.Name = VP8 := by
          rcases (vp8Format_iff sd f).mp hv with ⟨c', hc', hn'⟩
          rw [hK] at hc'
          injection hc' with hc'
          rw [hc']
          exact hn'
        rw [List.filterMap_cons_some hK, List.find?_cons_of_pos _ (by simp [hn]),
          List.find?_cons_of_pos _ hv, Option.some_bind, hK]
      · have hn : ¬(c.Name = VP8) := by
          intro hn
          exact hv ((vp8Format_iff sd f).mpr ⟨c, hK, hn⟩)
        rw [List.filterMap_cons_some hK, List.find?_cons_of_neg _ (by simp [hn]),
          List.find?_cons_of_neg _ (by simpa using hv), find_vp8_registry sd rest]

theorem find?_filter_of_imp {α : Type} (p q : α → Bool) :
    ∀ (l : List α), (∀ x ∈ l, p x = true → q x = true) →
      (l.filter q).find? p = l.find? p
  | [], _ => by simp
  | a :: l, h => by
    have ih := find?_filter_of_imp p q l (fun x hx => h x (List.mem_cons_of_mem a hx))
    by_cases hp : p a = true
    · have hq : q a = true := h a (List.mem_cons_self a l) hp
      rw [List.filter_cons_of_pos hq, List.find?_cons_of_pos _ hp,
        List.find?_cons_of_pos _ hp]
    · rw [List.find?_cons_of_neg _ (by simpa using hp)]
      by_cases hq : q a = true
      · rw [List.filter_cons_of_pos hq, List.find?_cons_of_neg _ (by simpa using hp)]
        exact ih
      · rw [List.filter_cons_of_neg (by simpa using hq)]
        exact ih

/-! ### Lemmas: the two VP8 selectors reduced to a single `find?` -/

theorem preferredCodec_eq_find (sd : ParsedSessionDescription) (m : MediaEngine)
    (hok : emptyEngine.PopulateFromSDP sd = .ok m) :
    preferredCodec VP8 sd =
      match m.codecs.find? (fun c => c.Name == VP8) with
      | some c => .ok c
      | none => .error .codecNotFound := by
  unfold preferredCodec
  rw [hok]
  simp only [GetCodecsByName_eq]
  cases hf : m.codecs.find? (fun c => c.Name == VP8) with
  | none =>
    have hh : (m.codecs.filter (fun c => c.Name == VP8)).head? = none := by
      rw [List.filter_head?, hf]
    cases hfil : m.codecs.filter (fun c => c.Name == VP8) with
    | nil => simp
    | cons a t => rw [hfil] at hh; exact Option.noConfusion hh
  | some c =>
    have hh : (m.codecs.filter (fun c => c.Name == VP8)).head? = some c := by
      rw [List.filter_head?, hf]
    cases hfil : m.codecs.filter (fun c => c.Name == VP8) with
    | nil => rw [hfil] at hh; exact Option.noConfusion hh
    | cons a t =>
      rw [hfil] at hh
      injection hh with hh
      rw [hh]

theorem firstCodecOfType_toOption (m : MediaEngine)
    (hreg : ∀ c ∈ m.codecs, c.Name = VP8 → c.Type' = RTPCodecTypeVideo) :
    (firstCodecOfType m VP8 RTPCodecTypeVideo).toOption =
      (m.codecs.find? (fun c => c.Name == VP8)).map (fun c => c.PayloadType) := by
  unfold firstCodecOfType
  rw [GetCodecsByKind_eq]
  have hfind : (m.codecs.filter (fun c => c.Type' == RTPCodecTypeVideo)).find?
        (fun c => c.Name == VP8) = m.codecs.find? (fun c => c.Name == VP8) := by
    apply find?_filter_of_imp
    intro c hc hp
    have hn : c.Name = VP8 := by simpa using hp
    simp [hreg c hc hn]
  by_cases he : (m.codecs.filter (fun c => c.Type' == RTPCodecTypeVideo)).isEmpty = true
  · have hnil : m.codecs.filter (fun c => c.Type' == RTPCodecTypeVideo) = [] :=
      List.isEmpty_iff.mp he
    have hnone : m.codecs.find? (fun c => c.Name == VP8) = none := by
      rw [← hfind, hnil]
      rfl
    simp [he, hnone, Except.toOption]
  · rw [Bool.not_eq_true] at he
    simp only [he, Bool.false_eq_true, if_false]
    rw [hfind]
    cases hf : m.codecs.find? (fun c => c.Name == VP8) with
    | none => simp [Except.toOption]
    | some c => simp [Except.toOption]

/-! ### Concrete descriptions used by witnesses and counterexamples -/

/-- One video section advertising VP8 at payload type 96. -/
def sdSingleVP8 : ParsedSessionDescription :=
  { MediaDescriptions := [{ Formats := ["96"] }]
    codecTable := [(96, { Name := "VP8", ClockRate := 90000, Fmtp := "" })] }

/-- The registry `PopulateFromSDP` builds from `sdSingleVP8`. -/
def engineSingleVP8 : MediaEngine :=
  { codecs := [(NewRTPVP8Codec 96 90000).setSDPFmtpLine ""] }

/-- One audio section advertising opus at payload type 111 with format
parameters `"x"`. -/
def sdOpusFmtp : ParsedSessionDescription :=
  { MediaDescriptions := [{ Formats := ["111"] }]
    codecTable := [(111, { Name := "opus", ClockRate := 48000, Fmtp := "x" })] }

/-- The registry `PopulateFromSDP` builds from `sdOpusFmtp`. -/
def engineOpus : MediaEngine :=
  { codecs := [NewRTPOpusCodec 111 48000] }

/-- One video section advertising VP9 at payload type 98. -/
def sdVP9only : ParsedSessionDescription :=
  { MediaDescriptions := [{ Formats := ["98"] }]
    codecTable := [(98, { Name := "VP9", ClockRate := 90000, Fmtp := "p" })] }

/-- The registry `PopulateFromSDP` builds from `sdVP9only`. -/
def engineVP9 : MediaEngine :=
  { codecs := [(NewRTPVP9Codec 98 90000).setSDPFmtpLine "p"] }

/-- A section declaring payload type 96 twice, both bound to VP8. -/
def sdDupVP8 : ParsedSessionDescription :=
  { MediaDescriptions := [{ Formats := ["96", "96"] }]
    codecTable := [(96, { Name := "VP8", ClockRate := 90000, Fmtp := "" })] }

/-- A section whose first format (`"5"`) parses but resolves to no codec
and whose second format (`"x"`) is not a valid integer. -/
def sdMixedOffense : ParsedSessionDescription :=
  { MediaDescriptions := [{ Formats := ["5", "x"] }], codecTable := [] }

/-- A description advertising no VP8 at all (no media sections). -/
def offerNoVP8 : ParsedSessionDescription :=
  { MediaDescriptions := [], codecTable := [] }

/-- A live relay with one subscriber sink attached (payload type 100)
and the process running. -/
def oneSinkState : SfuState := { sinks := [100], crashed := false }

/-! ### Claims -/

/-- C1: for every valid session description (one `PopulateFromSDP`
accepts) containing at least one format advertising VP8, resolving the
description and asking for the preferred VP8 payload type — via
`preferredCodec` or via `PopulateFromSDP` + `firstCodecOfType` — returns
exactly the payload type `P` at which the description's first-advertised
VP8 entry appears. -/
theorem preferredCodec_first_vp8_payload (sd : ParsedSessionDescription)
    (m : MediaEngine) (P : Nat)
    (hok : emptyEngine.PopulateFromSDP sd = .ok m)
    (hP : firstVP8PayloadType sd = some P) :
    (∃ c, preferredCodec VP8 sd = .ok c ∧ c.PayloadType = P) ∧
    firstCodecOfType m VP8 RTPCodecTypeVideo = .ok P := by
  have hm : m.codecs = sd.allFormats.filterMap (knownCodecOfFormat sd) :=
    registry_codecs sd m hok
  unfold firstVP8PayloadType at hP
  rcases Option.bind_eq_some.mp hP with ⟨f, hfind, h2⟩
  rcases Option.map_eq_some'.mp h2 with ⟨pt, hA, hPt⟩
  have hv : vp8Format sd f = true := List.find?_some hfind
  rcases (vp8Format_iff sd f).mp hv with ⟨c, hK, hName⟩
  have hCPT : c.PayloadType = P := by
    have h3 := hK
    unfold knownCodecOfFormat at h3
    rcases Option.bind_eq_some.mp h3 with ⟨pt', hA', h4⟩
    rcases Option.bind_eq_some.mp h4 with ⟨pc, hL, hS⟩
    rw [hA] at hA'
    injection hA' with hA'
    obtain ⟨-, hpt, -, -, -⟩ := switchCodec_fields pc (uint8OfInt pt') c hS
    rw [hpt, ← hA', hPt]
  have hfm : m.codecs.find? (fun c => c.Name == VP8) = some c := by
    rw [hm, find_vp8_registry, hfind, Option.some_bind, hK]
  constructor
  · refine ⟨c, ?_, hCPT⟩
    rw [preferredCodec_eq_find sd m hok, hfm]
  · have hreg : ∀ c' ∈ m.codecs, c'.Name = VP8 → c'.Type' = RTPCodecTypeVideo := by
      intro c' hc' hn'
      have hk' := (registry_fields sd m hok c' hc').2
      rw [hk', hn']
      decide
    have hopt := firstCodecOfType_toOption m hreg
    rw [hfm] at hopt
    cases hfc : firstCodecOfType m VP8 RTPCodecTypeVideo with
    | error e => rw [hfc] at hopt; exact Option.noConfusion hopt
    | ok pt0 =>
      rw [hfc] at hopt
      simp [Except.toOption] at hopt
      rw [hopt, hCPT]

/-- Witness for C1: on `sdSingleVP8`, which advertises VP8 first at
payload type 96, both selectors return 96. -/
theorem preferredCodec_first_vp8_payload_witness :
    emptyEngine.PopulateFromSDP sdSingleVP8 = .ok engineSingleVP8 ∧
    firstVP8PayloadType sdSingleVP8 = some 96 ∧
    ((∃ c, preferredCodec VP8 sdSingleVP8 = .ok c ∧ c.PayloadType = 96) ∧
      firstCodecOfType engineSingleVP8 VP8 RTPCodecTypeVideo = .ok 96) :=
  ⟨rfl, rfl, preferredCodec_first_vp8_payload sdSingleVP8 engineSingleVP8 96 rfl rfl⟩

/-- C2 counterexample: the claim says every known-name descriptor
carries exactly the format parameters the description bound to it, but
`sdOpusFmtp` binds `Fmtp = "x"` to opus and the resolver's descriptor
carries the constructor's fixed line instead (the opus and G722 branches
of `PopulateFromSDP` never assign `codec.SDPFmtpLine = parameters`). -/
theorem opus_fmtp_not_from_description :
    sdOpusFmtp.GetCodecForPayloadType 111 =
      some { Name := "opus", ClockRate := 48000, Fmtp := "x" } ∧
    (emptyEngine.PopulateFromSDP sdOpusFmtp).map
        (fun m => m.codecs.map (fun c => c.SDPFmtpLine)) =
      .ok ["minptime=10;useinbandfec=1"] ∧
    ("minptime=10;useinbandfec=1" : String) ≠ "x" :=
  ⟨rfl, rfl, by decide⟩

/-- C2 (amended): formats with unknown bound names are skipped without
error, and the registry's descriptors carry, in scan order, exactly the
payload type number and clock rate the description bound — but the
description's format parameters only for VP8, VP9 and H264, while G722
descriptors carry `""` and opus descriptors the fixed line
`minptime=10;useinbandfec=1`; no other payload type numbers appear. -/
theorem registry_triples_of_populate (sd : ParsedSessionDescription)
    (m : MediaEngine) (hok : emptyEngine.PopulateFromSDP sd = .ok m) :
    m.codecs.map (fun c => (c.PayloadType, c.ClockRate, c.SDPFmtpLine)) =
      sd.allFormats.filterMap (boundKnown sd) := by
  rw [registry_codecs sd m hok, List.map_filterMap]
  apply List.filterMap_congr
  intro f _
  exact knownCodecOfFormat_triple sd f

/-- Witness for C2 (amended) at `sdOpusFmtp`. -/
theorem registry_triples_of_populate_witness :
    emptyEngine.PopulateFromSDP sdOpusFmtp = .ok engineOpus ∧
    engineOpus.codecs.map (fun c => (c.PayloadType, c.ClockRate, c.SDPFmtpLine)) =
      sdOpusFmtp.allFormats.filterMap (boundKnown sdOpusFmtp) :=
  ⟨rfl, registry_triples_of_populate sdOpusFmtp engineOpus rfl⟩

/-- C3 counterexample: the claim says a subscriber whose offer fails
negotiation leaves the shared relay's forwarding to already-attached
sinks unchanged, but the subscriber loop panics (`panic(err)`), killing
the process: after `subscriberStep` on a no-VP8 offer the one attached
sink, which received every packet before, receives nothing. -/
theorem subscriber_failure_stops_forwarding :
    preferredCodec VP8 offerNoVP8 = .error .codecNotFound ∧
    deliverPacket oneSinkState [7] = [(100, [7])] ∧
    deliverPacket (subscriberStep oneSinkState offerNoVP8) [7] = [] :=
  ⟨rfl, rfl, rfl⟩

/-- C3 (amended): a subscriber whose offer fails negotiation is not
confined to that subscriber: the `panic(err)` in the subscriber loop
crashes the whole process, after which no packet is forwarded to any
attached sink. -/
theorem subscriber_failure_crashes_process (st : SfuState)
    (offer : ParsedSessionDescription)
    (hfail : (preferredCodec VP8 offer).toOption = none) :
    (subscriberStep st offer).crashed = true ∧
    ∀ d, deliverPacket (subscriberStep st offer) d = [] := by
  unfold subscriberStep
  by_cases hc : st.crashed = true
  · simp [hc, deliverPacket]
  · rw [Bool.not_eq_true] at hc
    simp only [hc, Bool.false_eq_true, if_false]
    cases hp : preferredCodec VP8 offer with
    | ok c => rw [hp] at hfail; simp [Except.toOption] at hfail
    | error e => simp [deliverPacket]

/-- Witness for C3 (amended) at `oneSinkState` and `offerNoVP8`. -/
theorem subscriber_failure_crashes_process_witness :
    (preferredCodec VP8 offerNoVP8).toOption = none ∧
    (subscriberStep oneSinkState offerNoVP8).crashed = true ∧
    deliverPacket (subscriberStep oneSinkState offerNoVP8) [7] = [] :=
  ⟨rfl, (subscriber_failure_crashes_process oneSinkState offerNoVP8 rfl).1,
    (subscriber_failure_crashes_process oneSinkState offerNoVP8 rfl).2 [7]⟩

/-- C4 counterexample: the claim says `PopulateFromSDP` fails with
`MalformedDescription` exactly when some format identifier is not a
valid integer, but on `sdMixedOffense` the format `"x"` is not a valid
integer and the resolver still fails with `UnresolvableCodec 5`, because
the earlier format `"5"` offends first. -/
theorem mixed_offense_error_order :
    emptyEngine.PopulateFromSDP sdMixedOffense =
      .error (.unresolvableCodec 5) ∧
    sdMixedOffense.allFormats = ["5", "x"] ∧
    atoi "x" = none ∧
    PopulateErr.unresolvableCodec 5 ≠ PopulateErr.malformedDescription :=
  ⟨rfl, rfl, rfl, by decide⟩

/-- C4 (amended): `PopulateFromSDP` fails exactly when some declared
format offends, and the error is decided by the first offending format
in scan order — `malformedDescription` when that format is not a valid
integer, `unresolvableCodec pt` when it parses but no codec name can be
determined for its payload type within the same description; in the
functional embedding the error case produces no registry. -/
theorem populate_error_iff_first_offense (m : MediaEngine)
    (sd : ParsedSessionDescription) (e : PopulateErr) :
    m.PopulateFromSDP sd = .error e ↔ firstOffense sd = some e := by
  rw [PopulateFromSDP_eq, populateFormats_error_iff, firstOffense]

/-- C5 counterexample: the claim says every registry produced by
`PopulateFromSDP` has pairwise-distinct payload type numbers, but a
description declaring payload type 96 twice yields a registry with two
descriptors both at 96 (`RegisterCodec` never deduplicates). -/
theorem duplicate_payload_types_registered :
    (emptyEngine.PopulateFromSDP sdDupVP8).map
        (fun m => m.codecs.map (fun c => c.PayloadType)) = .ok [96, 96] ∧
    ¬ ([96, 96] : List Nat).Nodup :=
  ⟨rfl, by decide⟩

/-- C5 (amended): neither `RegisterCodec` nor `PopulateFromSDP` enforces
payload type uniqueness; the registry's payload type list is exactly the
known-name formats' payload types in scan order, so it is duplicate-free
exactly when those inputs are. -/
theorem registry_payload_types_of_populate (sd : ParsedSessionDescription)
    (m : MediaEngine) (hok : emptyEngine.PopulateFromSDP sd = .ok m) :
    m.codecs.map (fun c => c.PayloadType) = knownPayloadTypes sd ∧
    ((knownPayloadTypes sd).Nodup →
      (m.codecs.map (fun c => c.PayloadType)).Nodup) := by
  have h1 : m.codecs.map (fun c => c.PayloadType) = knownPayloadTypes sd := by
    rw [registry_codecs sd m hok, List.map_filterMap, knownPayloadTypes]
  exact ⟨h1, fun h => h1 ▸ h⟩

/-- Witness for C5 (amended) at `sdSingleVP8`. -/
theorem registry_payload_types_of_populate_witness :
    emptyEngine.PopulateFromSDP sdSingleVP8 = .ok engineSingleVP8 ∧
    (engineSingleVP8.codecs.map (fun c => c.PayloadType) =
        knownPayloadTypes sdSingleVP8 ∧
      ((knownPayloadTypes sdSingleVP8).Nodup →
        (engineSingleVP8.codecs.map (fun c => c.PayloadType)).Nodup)) :=
  ⟨rfl, registry_payload_types_of_populate sdSingleVP8 engineSingleVP8 rfl⟩

/-- C6 counterexample: the claim says every descriptor the resolver
constructs for a known canonical name carries a non-null packetizer
capability, but the VP9 descriptor carries none — `NewRTPVP9Codec`
passes `nil` for its payloader (`pion/webrtc#755`). -/
theorem vp9_descriptor_has_no_payloader :
    (emptyEngine.PopulateFromSDP sdVP9only).map
        (fun m => m.codecs.map (fun c => (c.Name, c.Payloader))) =
      .ok [(VP9, (none : Option Payloader))] :=
  rfl

/-- C6 (amended): for every descriptor the resolver constructs, the
attached packetizer capability is a function of the canonical name alone
(which also determines the kind): any two descriptors with the same name
carry the same capability, which is present for G722, opus, VP8 and
H264 but absent for VP9. -/
theorem payloader_function_of_name (sd : ParsedSessionDescription)
    (m : MediaEngine) (c c' : RTPCodec)
    (hok : emptyEngine.PopulateFromSDP sd = .ok m)
    (hc : c ∈ m.codecs) (hc' : c' ∈ m.codecs) :
    c.Payloader = payloaderForName c.Name ∧ c.Type' = kindForName c.Name ∧
      (c'.Name = c.Name → c'.Payloader = c.Payloader) := by
  obtain ⟨hp, hk⟩ := registry_fields sd m hok c hc
  obtain ⟨hp', -⟩ := registry_fields sd m hok c' hc'
  exact ⟨hp, hk, fun hn => by rw [hp', hn, hp]⟩

/-- Witness for C6 (amended) at the VP9 descriptor of `engineVP9`. -/
theorem payloader_function_of_name_witness :
    emptyEngine.PopulateFromSDP sdVP9only = .ok engineVP9 ∧
    ((NewRTPVP9Codec 98 90000).setSDPFmtpLine "p") ∈ engineVP9.codecs ∧
    (((NewRTPVP9Codec 98 90000).setSDPFmtpLine "p").Payloader =
        payloaderForName ((NewRTPVP9Codec 98 90000).setSDPFmtpLine "p").Name ∧
      ((NewRTPVP9Codec 98 90000).setSDPFmtpLine "p").Type' =
        kindForName ((NewRTPVP9Codec 98 90000).setSDPFmtpLine "p").Name ∧
      (((NewRTPVP9Codec 98 90000).setSDPFmtpLine "p").Name =
          ((NewRTPVP9Codec 98 90000).setSDPFmtpLine "p").Name →
        ((NewRTPVP9Codec 98 90000).setSDPFmtpLine "p").Payloader =
          ((NewRTPVP9Codec 98 90000).setSDPFmtpLine "p").Payloader)) :=
  ⟨rfl, by decide,
    payloader_function_of_name sdVP9only engineVP9
      ((NewRTPVP9Codec 98 90000).setSDPFmtpLine "p")
      ((NewRTPVP9Codec 98 90000).setSDPFmtpLine "p") rfl (by decide) (by decide)⟩

/-- C7: in the forwarding loop, an `io.ErrClosedPipe` write failure is
swallowed and the loop continues to the next read, while any other write
failure and any read failure terminate the loop, after which no further
packets are forwarded (the remaining trace contributes nothing). -/
theorem runLoop_write_error_policy (pre post : List LoopEvent) (d : List Nat) :
    runLoop (pre ++ .packet d .closedPipe :: post) = runLoop (pre ++ post) ∧
    runLoop (pre ++ .readFail :: post) = runLoop pre ∧
    runLoop (pre ++ .packet d .fatal :: post) = runLoop pre := by
  induction pre with
  | nil => simp [runLoop]
  | cons e rest ih =>
    cases e with
    | readFail => simp [runLoop]
    | packet d' w => cases w <;> simp [runLoop, ih.1, ih.2.1, ih.2.2]

/-- C8: for every session description whose resolved registry contains
no VP8 entry, both selectors fail rather than returning a payload type:
`preferredCodec` with the codec-not-found error, and `firstCodecOfType`
with one of its two not-found errors (`noCodecsOfKind` when the registry
has no video entry at all, `noCodecsOfName` otherwise), so its result
carries no payload type. -/
theorem preferredCodec_codecNotFound (sd : ParsedSessionDescription)
    (m : MediaEngine) (hok : emptyEngine.PopulateFromSDP sd = .ok m)
    (hempty : m.GetCodecsByName VP8 = []) :
    preferredCodec VP8 sd = .error .codecNotFound ∧
    (firstCodecOfType m VP8 RTPCodecTypeVideo).toOption = none := by
  have hnone : m.codecs.find? (fun c => c.Name == VP8) = none := by
    rw [← List.filter_head?, ← GetCodecsByName_eq, hempty]
    rfl
  constructor
  · rw [preferredCodec_eq_find sd m hok, hnone]
  · have hreg : ∀ c' ∈ m.codecs, c'.Name = VP8 →
        c'.Type' = RTPCodecTypeVideo := by
      intro c' hc' hn'
      have hk' := (registry_fields sd m hok c' hc').2
      rw [hk', hn']
      decide
    rw [firstCodecOfType_toOption m hreg, hnone]
    rfl

/-- Witness for C8 at `sdOpusFmtp`, whose registry is non-empty but has
no VP8 entry: both selectors fail. -/
theorem preferredCodec_codecNotFound_witness :
    emptyEngine.PopulateFromSDP sdOpusFmtp = .ok engineOpus ∧
    engineOpus.GetCodecsByName VP8 = [] ∧
    (preferredCodec VP8 sdOpusFmtp = .error .codecNotFound ∧
      (firstCodecOfType engineOpus VP8 RTPCodecTypeVideo).toOption = none) :=
  ⟨rfl, rfl, preferredCodec_codecNotFound sdOpusFmtp engineOpus rfl rfl⟩

/-- C9: `GetCodecsByKind` and `GetCodecsByName` return exactly the
descriptors matching the kind or name, as the order-preserving filter
(hence a sublist) of the registry, whose order is registration order
(`RegisterCodec` appends). -/
theorem lookups_preserve_registration_order (m : MediaEngine)
    (kind : RTPCodecType) (codecName : String) (codec : RTPCodec) :
    m.GetCodecsByKind kind = m.codecs.filter (fun c => c.Type' == kind) ∧
    m.GetCodecsByName codecName =
      m.codecs.filter (fun c => c.Name == codecName) ∧
    (m.GetCodecsByKind kind).Sublist m.codecs ∧
    (m.GetCodecsByName codecName).Sublist m.codecs ∧
    ((m.RegisterCodec codec).1).codecs = m.codecs ++ [codec] :=
  ⟨GetCodecsByKind_eq m kind, GetCodecsByName_eq m codecName,
    by rw [GetCodecsByKind_eq]; exact List.filter_sublist _,
    by rw [GetCodecsByName_eq]; exact List.filter_sublist _, rfl⟩

/-- C10: on every registry produced by `PopulateFromSDP`, the two VP8
selectors agree — `firstCodecOfType m "VP8" video` and
`preferredCodec "VP8" sd` either both fail or both succeed with the same
payload type number. -/
theorem firstCodecOfType_equiv_preferredCodec (sd : ParsedSessionDescription)
    (m : MediaEngine) (hok : emptyEngine.PopulateFromSDP sd = .ok m) :
    (firstCodecOfType m VP8 RTPCodecTypeVideo).toOption =
      (preferredCodec VP8 sd).toOption.map (fun c => c.PayloadType) := by
  have hreg : ∀ c' ∈ m.codecs, c'.Name = VP8 → c'.Type' = RTPCodecTypeVideo := by
    intro c' hc' hn'
    have hk' := (registry_fields sd m hok c' hc').2
    rw [hk', hn']
    decide
  rw [firstCodecOfType_toOption m hreg, preferredCodec_eq_find sd m hok]
  cases hf : m.codecs.find? (fun c => c.Name == VP8) with
  | none => simp [Except.toOption]
  | some c => simp [Except.toOption]

/-- Witness for C10 at `sdSingleVP8`. -/
theorem firstCodecOfType_equiv_preferredCodec_witness :
    emptyEngine.PopulateFromSDP sdSingleVP8 = .ok engineSingleVP8 ∧
    (firstCodecOfType engineSingleVP8 VP8 RTPCodecTypeVideo).toOption =
      (preferredCodec VP8 sdSingleVP8).toOption.map (fun c => c.PayloadType) :=
  ⟨rfl, firstCodecOfType_equiv_preferredCodec sdSingleVP8 engineSingleVP8 rfl⟩

end Webrtc




